import Mathlib

/-!
Shallow embedding of the securaye repository (network_analyzer.py and
security_advisor.py) used to verify the specification claims.  Python
strings are modelled as Lean strings or character lists, Python ints as
Nat or Int, and fallible operations as Option.  Each definition mirrors
the corresponding Python function; comments name the source location.
-/

/-- Whitespace characters recognised by Python str.split() with no
arguments (space, tab, newline, carriage return, vertical tab, form feed). -/
def isPyWs (c : Char) : Bool :=
  c == ' ' || c == '\t' || c == '\n' || c == '\r' || c == '\x0b' || c == '\x0c'

/-- Helper for splitWs: accumulates the current word in reverse. -/
def splitWsAux : List Char → List Char → List (List Char)
  | [], acc => if acc.isEmpty then [] else [acc.reverse]
  | c :: rest, acc =>
    if isPyWs c then
      if acc.isEmpty then splitWsAux rest [] else acc.reverse :: splitWsAux rest []
    else
      splitWsAux rest (c :: acc)

/-- Python str.split() with no arguments: split on whitespace runs,
dropping empty pieces. -/
def splitWs (s : List Char) : List (List Char) := splitWsAux s []

/-- Boolean list-prefixed test used to model str.startswith and substring scans. -/
def startsWithChars : List Char → List Char → Bool
  | [], _ => true
  | _ :: _, [] => false
  | p :: ps, c :: cs => (p == c) && startsWithChars ps cs

/-- Python substring containment: pat in s. -/
def containsSub (pat : List Char) (s : List Char) : Bool :=
  match s with
  | [] => startsWithChars pat []
  | _ :: rest => startsWithChars pat s || containsSub pat rest

/-- String wrapper for containsSub. -/
def containsSubStr (pat : String) (s : String) : Bool := containsSub pat.data s.data

/-- Whether a character list starts with a decimal digit. -/
def headIsDigit : List Char → Bool
  | [] => false
  | c :: _ => c.isDigit

/-- Python int() applied to a string of decimal digits. -/
def natOfDigits (ds : List Char) : Nat :=
  ds.foldl (fun n c => 10 * n + (c.toNat - 48)) 0

/-- Model of a successful re.search of the raw pattern colon-digits
anywhere in the string: find the leftmost colon that is immediately
followed by a digit and return the value of the maximal digit run after
it (the captured group of the greedy digit quantifier). -/
def colonDigitsSearch : List Char → Option Nat
  | [] => none
  | c :: rest =>
    if (c == ':') && headIsDigit rest then
      some (natOfDigits (rest.takeWhile Char.isDigit))
    else
      colonDigitsSearch rest

/-- Model of matching the pattern colon-digits anchored at the start of
the string. -/
def colonDigitsStart : List Char → Option Nat
  | [] => none
  | c :: rest =>
    if (c == ':') && headIsDigit rest then
      some (natOfDigits (rest.takeWhile Char.isDigit))
    else none

/-- Characters matched by the address character class of digits and dots. -/
def isAddrDot (c : Char) : Bool := c.isDigit || c == '.'

/-- Lazy scan inside a bracketed address: find the first closing bracket
that is followed by colon-digits, as the lazy dot quantifier would. -/
def bracketScan : List Char → Option Nat
  | [] => none
  | c :: rest =>
    if c == ']' then
      match colonDigitsStart rest with
      | some p => some p
      | none => bracketScan rest
    else bracketScan rest

/-- One attempt of the fallback address-and-port regex of
_parse_network_info at a fixed start position: a star, a run of digits
and dots, or a bracketed address, each followed by colon-digits.
Alternatives are tried in the order they appear in the pattern. -/
def addrAt (s : List Char) : Option Nat :=
  match s with
  | [] => none
  | c :: rest =>
    if c == '*' then colonDigitsStart rest
    else if isAddrDot c then colonDigitsStart ((c :: rest).dropWhile isAddrDot)
    else if c == '[' then bracketScan rest
    else none

/-- Model of re.search for the fallback address-and-port pattern of
_parse_network_info: leftmost start position wins. -/
def addrPortSearch : List Char → Option Nat
  | [] => none
  | c :: rest =>
    match addrAt (c :: rest) with
    | some p => some p
    | none => addrPortSearch rest

/-- Model of re.search for colon-digits anchored at the end of the
string, as used for UDP records: the leftmost colon whose entire
remaining suffix is a nonempty digit run. -/
def endColonDigits : List Char → Option Nat
  | [] => none
  | c :: rest =>
    if (c == ':') && !rest.isEmpty && rest.all Char.isDigit then
      some (natOfDigits rest)
    else endColonDigits rest

/-- Whether the list contains a colon immediately followed by a digit. -/
def hasColonDigit : List Char → Bool
  | [] => false
  | c :: rest => ((c == ':') && headIsDigit rest) || hasColonDigit rest

/-- Connection states distinguished by _parse_network_info. -/
inductive NetState
  | LISTENING
  | ESTABLISHED
  | CLOSED
  | SYN_SENT
  | OTHER
  deriving DecidableEq

/-- One parsed lsof row, the dictionary built by NetworkAnalyzer.parse_line.
The port key is optional exactly as in the Python dictionary. -/
structure RawRecord where
  command : String
  pid : String
  user : String
  protocol : String
  name : String
  state : NetState
  port : Option Nat
  deriving DecidableEq

def listenTok : List Char := "(LISTEN)".data

def establishedTok : List Char := "(ESTABLISHED)".data

def closedTok : List Char := "(CLOSED)".data

def synSentTok : List Char := "(SYN_SENT)".data

/-- NetworkAnalyzer._parse_network_info: state from literal substrings of
the name field; port for LISTENING via the colon-digits search with the
address-pattern fallback, and for UDP records in state OTHER via the
end-anchored colon-digits search. -/
def parseNetworkInfo (protocol : List Char) (name : List Char) : NetState × Option Nat :=
  if containsSub listenTok name then
    (NetState.LISTENING,
      match colonDigitsSearch name with
      | some p => some p
      | none => addrPortSearch name)
  else if containsSub establishedTok name then (NetState.ESTABLISHED, none)
  else if containsSub closedTok name then (NetState.CLOSED, none)
  else if containsSub synSentTok name then (NetState.SYN_SENT, none)
  else
    (NetState.OTHER, if protocol == "UDP".data then endColonDigits name else none)

/-- Single space join of the name fields after the protocol token. -/
def joinSpace : List (List Char) → List Char
  | [] => []
  | [w] => w
  | w :: ws => w ++ ' ' :: joinSpace ws

def protoTokens : List (List Char) := ["TCP".data, "UDP".data, "ICMP".data, "ICMPV6".data]

/-- Scan for the first field equal to a protocol token; returns the token
and the fields after it. -/
def findProto : List (List Char) → Option (List Char × List (List Char))
  | [] => none
  | w :: ws => if protoTokens.contains w then some (w, ws) else findProto ws

/-- NetworkAnalyzer.parse_line.  Header lines and lines with fewer than
nine whitespace-separated fields are rejected; otherwise the first
protocol token is located by scanning, the name is rejoined from the
fields after it, and the network info is extracted.  Every operation in
the Python try block is total on inputs that reach it, so the
try-except contributes no further cases. -/
def parseLine (line : String) : Option RawRecord :=
  if startsWithChars "COMMAND".data line.data then none
  else
    let parts := splitWs line.data
    if parts.length < 9 then none
    else
      match parts with
      | c :: p :: u :: _ =>
        match findProto parts with
        | none => none
        | some (proto, nameParts) =>
          let name := joinSpace nameParts
          let si := parseNetworkInfo proto name
          some ⟨String.mk c, String.mk p, String.mk u, String.mk proto,
                String.mk name, si.1, si.2⟩
      | _ => none

/-- The mutable state of a NetworkAnalyzer: listener and connection lists
plus the two defaultdict indices.  A port or command key is present in
the Python defaultdict exactly when its bucket here is nonempty, since
keys are only ever created by an append. -/
structure Registry where
  listeners : List RawRecord
  connections : List RawRecord
  byPort : Nat → List RawRecord
  byProcess : String → List RawRecord

def emptyRegistry : Registry := ⟨[], [], fun _ => [], fun _ => []⟩

/-- Append a record to one bucket of the by-port index. -/
def addPort (f : Nat → List RawRecord) (p : Nat) (d : RawRecord) : Nat → List RawRecord :=
  fun q => if q = p then f q ++ [d] else f q

/-- Append a record to one bucket of the by-process index. -/
def addProc (f : String → List RawRecord) (c : String) (d : RawRecord) :
    String → List RawRecord :=
  fun q => if q = c then f q ++ [d] else f q

/-- Python falsiness of line.strip(): the line is entirely whitespace. -/
def stripIsEmpty (line : String) : Bool := line.data.all isPyWs

/-- One iteration of the loop body of NetworkAnalyzer.analyze_data. -/
def regStep (reg : Registry) (line : String) : Registry :=
  if stripIsEmpty line then reg
  else
    match parseLine line with
    | none => reg
    | some d =>
      let reg1 :=
        match d.state with
        | NetState.LISTENING =>
          { reg with
            listeners := reg.listeners ++ [d],
            byPort :=
              match d.port with
              | some p => addPort reg.byPort p d
              | none => reg.byPort }
        | NetState.ESTABLISHED => { reg with connections := reg.connections ++ [d] }
        | NetState.CLOSED => { reg with connections := reg.connections ++ [d] }
        | NetState.SYN_SENT => { reg with connections := reg.connections ++ [d] }
        | NetState.OTHER => reg
      { reg1 with byProcess := addProc reg1.byProcess d.command d }

/-- NetworkAnalyzer.analyze_data over a batch of input lines. -/
def analyzeData (lines : List String) : Registry := lines.foldl regStep emptyRegistry

def starColon : List Char := "*:".data

def zeroAddr : List Char := "0.0.0.0".data

/-- The all_interface_listeners list built in NetworkAnalyzer.print_summary:
one (command, port, user) entry per listener whose name contains a star
colon or the zero address and which has a port, in listener order and
with multiplicity. -/
def allInterfaceListeners (reg : Registry) : List (String × Nat × String) :=
  reg.listeners.filterMap (fun l =>
    if containsSub starColon l.name.data || containsSub zeroAddr l.name.data then
      match l.port with
      | some p => some (l.command, p, l.user)
      | none => none
    else none)

/-- Keys of the suspicious_ports table in print_summary, in insertion order. -/
def suspiciousPorts : List Nat := [23, 21, 139, 445, 3389, 5900, 6379, 5432, 3306, 27017, 9200, 111]

/-- The root_services list of print_summary: listeners owned by root on a
port above 1024, a missing port counting as zero. -/
def rootHighListeners (reg : Registry) : List RawRecord :=
  reg.listeners.filter (fun l => (l.user == "root") && decide (1024 < l.port.getD 0))

/-- Suspicious ports that are present as keys of the by-port index. -/
def flaggedRiskyPorts (reg : Registry) : List Nat :=
  suspiciousPorts.filter (fun p => !(reg.byPort p).isEmpty)

/-- The security score computed at the end of print_summary. -/
def securityScore (reg : Registry) : Int :=
  max 0 (100 - 10 * ((allInterfaceListeners reg).length : Int)
           - 5 * ((flaggedRiskyPorts reg).length : Int)
           - 2 * ((rootHighListeners reg).length : Int))

def criticalPorts : List Nat := [23, 6379, 27017, 9200]

def highPorts : List Nat := [21, 22, 3389, 5900, 5432, 3306]

/-- NetworkAnalyzer._assess_port_risk. -/
def assessPortRisk (port : Nat) : String :=
  if criticalPorts.contains port then "CRITICAL"
  else if highPorts.contains port then "HIGH"
  else if port < 1024 then "MEDIUM"
  else "LOW"

/-- Scoring formula as worded by claim C1: the first term counts distinct
all-interface (command, port, user) tuples rather than list entries.
This definition follows the claim text, for comparison with
securityScore which follows the source. -/
def claimScoreDistinct (reg : Registry) : Int :=
  max 0 (100 - 10 * (((allInterfaceListeners reg).dedup).length : Int)
           - 5 * ((flaggedRiskyPorts reg).length : Int)
           - 2 * ((rootHighListeners reg).length : Int))

def redisLine : String := "redis-server 4242 root 6u IPv4 0x1234 0t0 TCP *:6379 (LISTEN)"

def ipv6Line : String := "rapportd 500 alice 7u IPv6 0xdead 0t0 TCP [::1]:8080 (LISTEN)"

def shortLine : String := "nc 1 root 4u IPv4 0x1 TCP *:31337"

def garbageLine : String := "this is definitely not lsof output at all"

/-- Reduction modulo two to the thirty-two, the word size of MD5. -/
def m32 (n : Nat) : Nat := n % 4294967296

/-- Left rotation of a 32-bit word. -/
def rotl32 (x : Nat) (s : Nat) : Nat := m32 (x <<< s) ||| (x >>> (32 - s))

/-- Bitwise complement of a 32-bit word. -/
def md5Not (x : Nat) : Nat := x ^^^ 4294967295

def md5F (b c d : Nat) : Nat := (b &&& c) ||| (md5Not b &&& d)

def md5G (b c d : Nat) : Nat := (d &&& b) ||| (md5Not d &&& c)

def md5H (b c d : Nat) : Nat := b ^^^ c ^^^ d

def md5I (b c d : Nat) : Nat := c ^^^ (b ||| md5Not d)

/-- The 64 sine-derived constants of MD5. -/
def md5K : List Nat :=
  [0xd76aa478, 0xe8c7b756, 0x242070db, 0xc1bdceee,
   0xf57c0faf, 0x4787c62a, 0xa8304613, 0xfd469501,
   0x698098d8, 0x8b44f7af, 0xffff5bb1, 0x895cd7be,
   0x6b901122, 0xfd987193, 0xa679438e, 0x49b40821,
   0xf61e2562, 0xc040b340, 0x265e5a51, 0xe9b6c7aa,
   0xd62f105d, 0x02441453, 0xd8a1e681, 0xe7d3fbc8,
   0x21e1cde6, 0xc33707d6, 0xf4d50d87, 0x455a14ed,
   0xa9e3e905, 0xfcefa3f8, 0x676f02d9, 0x8d2a4c8a,
   0xfffa3942, 0x8771f681, 0x6d9d6122, 0xfde5380c,
   0xa4beea44, 0x4bdecfa9, 0xf6bb4b60, 0xbebfbc70,
   0x289b7ec6, 0xeaa127fa, 0xd4ef3085, 0x04881d05,
   0xd9d4d039, 0xe6db99e5, 0x1fa27cf8, 0xc4ac5665,
   0xf4292244, 0x432aff97, 0xab9423a7, 0xfc93a039,
   0x655b59c3, 0x8f0ccc92, 0xffeff47d, 0x85845dd1,
   0x6fa87e4f, 0xfe2ce6e0, 0xa3014314, 0x4e0811a1,
   0xf7537e82, 0xbd3af235, 0x2ad7d2bb, 0xeb86d391]

/-- The per-round left-rotation amounts of MD5. -/
def md5S : List Nat :=
  [7, 12, 17, 22, 7, 12, 17, 22, 7, 12, 17, 22, 7, 12, 17, 22,
   5, 9, 14, 20, 5, 9, 14, 20, 5, 9, 14, 20, 5, 9, 14, 20,
   4, 11, 16, 23, 4, 11, 16, 23, 4, 11, 16, 23, 4, 11, 16, 23,
   6, 10, 15, 21, 6, 10, 15, 21, 6, 10, 15, 21, 6, 10, 15, 21]

/-- One of the 64 rounds of the MD5 compression function. -/
def md5Round (M : List Nat) (st : Nat × Nat × Nat × Nat) (i : Nat) : Nat × Nat × Nat × Nat :=
  let a := st.1
  let b := st.2.1
  let c := st.2.2.1
  let d := st.2.2.2
  let f :=
    if i < 16 then md5F b c d
    else if i < 32 then md5G b c d
    else if i < 48 then md5H b c d
    else md5I b c d
  let g :=
    if i < 16 then i
    else if i < 32 then (5 * i + 1) % 16
    else if i < 48 then (3 * i + 5) % 16
    else (7 * i) % 16
  let tmp := m32 (f + a + md5K.getD i 0 + M.getD g 0)
  (d, m32 (b + rotl32 tmp (md5S.getD i 0)), b, c)

/-- The MD5 compression function applied to one 16-word block. -/
def md5Block (st : Nat × Nat × Nat × Nat) (M : List Nat) : Nat × Nat × Nat × Nat :=
  let r := (List.range 64).foldl (md5Round M) st
  (m32 (st.1 + r.1), m32 (st.2.1 + r.2.1), m32 (st.2.2.1 + r.2.2.1), m32 (st.2.2.2 + r.2.2.2))

/-- Eight little-endian bytes of a length in bits. -/
def le8 (n : Nat) : List Nat :=
  [n &&& 255, (n >>> 8) &&& 255, (n >>> 16) &&& 255, (n >>> 24) &&& 255,
   (n >>> 32) &&& 255, (n >>> 40) &&& 255, (n >>> 48) &&& 255, (n >>> 56) &&& 255]

/-- MD5 padding: a one bit, zeros to 56 modulo 64, then the bit length. -/
def md5Pad (msg : List Nat) : List Nat :=
  let len := msg.length
  let padLen := (64 + 56 - ((len + 1) % 64)) % 64
  msg ++ 128 :: (List.replicate padLen 0 ++ le8 (8 * len))

/-- Four little-endian bytes to one 32-bit word, over a whole block. -/
def toWords32 : List Nat → List Nat
  | a :: b :: c :: d :: rest => (a + 256 * b + 65536 * c + 16777216 * d) :: toWords32 rest
  | _ => []

/-- Split a byte list into 64-byte blocks, with a fuel argument making the
recursion structural; each step consumes at least one byte, so the length
of the list is sufficient fuel. -/
def chunks64Fuel : Nat → List Nat → List (List Nat)
  | 0, _ => []
  | _ + 1, [] => []
  | n + 1, c :: rest => ((c :: rest).take 64) :: chunks64Fuel n ((c :: rest).drop 64)

/-- Split a byte list into 64-byte blocks. -/
def chunks64 (l : List Nat) : List (List Nat) := chunks64Fuel l.length l

def hexDigitChars : List Char := "0123456789abcdef".data

def byteHex (b : Nat) : List Char := [hexDigitChars.getD (b / 16) '0', hexDigitChars.getD (b % 16) '0']

/-- Lowercase hex rendering of one state word, least significant byte first. -/
def wordHexLE (w : Nat) : List Char :=
  byteHex (w &&& 255) ++ byteHex ((w >>> 8) &&& 255) ++
  byteHex ((w >>> 16) &&& 255) ++ byteHex ((w >>> 24) &&& 255)

/-- hashlib.md5(s.encode()).hexdigest() for an ASCII string, where the
character codes are the UTF-8 bytes. -/
def md5Hex (s : String) : String :=
  let msg := s.data.map Char.toNat
  let blocks := (chunks64 (md5Pad msg)).map toWords32
  let st := blocks.foldl md5Block (0x67452301, 0xefcdab89, 0x98badcfe, 0x10325476)
  String.mk (wordHexLE st.1 ++ wordHexLE st.2.1 ++ wordHexLE st.2.2.1 ++ wordHexLE st.2.2.2)

/-- Rendering of NetState back to the state strings stored in the parsed
dictionaries and sent to the advisor. -/
def stateToStr : NetState → String
  | NetState.LISTENING => "LISTENING"
  | NetState.ESTABLISHED => "ESTABLISHED"
  | NetState.CLOSED => "CLOSED"
  | NetState.SYN_SENT => "SYN_SENT"
  | NetState.OTHER => "OTHER"

/-- The ServiceInfo pydantic model of security_advisor.py.  The interface
field is optional, defaulting to null. -/
structure ServiceInfo where
  command : String
  port : Nat
  protocol : String
  user : String
  state : String
  interface : Option String
  deriving DecidableEq

/-- The services_data list built by NetworkAnalyzer.get_ai_recommendations:
one entry per listener that has a port, with the interface derived from
the star-colon test on the name field. -/
def servicesData (reg : Registry) : List ServiceInfo :=
  reg.listeners.filterMap (fun l =>
    match l.port with
    | some p =>
      some ⟨l.command, p, l.protocol, l.user, stateToStr l.state,
            some (if containsSub starColon l.name.data then "*" else "127.0.0.1")⟩
    | none => none)

/-- The NetworkAnalysis pydantic model: the request payload of the
advisory boundary.  The timestamp field has a wall-clock default in the
source and is passed in explicitly here. -/
structure NetworkAnalysis where
  services : List ServiceInfo
  security_score : Int
  vulnerabilities : List String
  external_connections : List (String × String)
  suspicious_ports : List Nat
  timestamp : String
  deriving DecidableEq

/-- Python name.split applied with the two-character arrow separator. -/
def splitArrow : List Char → List (List Char)
  | [] => [[]]
  | '-' :: '>' :: rest => [] :: splitArrow rest
  | c :: rest =>
    match splitArrow rest with
    | [] => [[c]]
    | w :: ws => (c :: w) :: ws

/-- The private address range literals of NetworkAnalyzer._is_private_ip. -/
def privateStarts : List String :=
  ["10.", "172.16.", "172.17.", "172.18.", "172.19.",
   "172.20.", "172.21.", "172.22.", "172.23.", "172.24.",
   "172.25.", "172.26.", "172.27.", "172.28.", "172.29.",
   "172.30.", "172.31.", "192.168.", "fe80:", "fd"]

/-- NetworkAnalyzer._is_private_ip. -/
def isPrivateIp (ip : List Char) : Bool :=
  privateStarts.any (fun r => startsWithChars r.data ip)

/-- The external connections list assembled in get_ai_recommendations:
established connections whose name avoids the loopback literals, split on
the arrow into exactly two parts, with a non-private destination. -/
def externalConnections (reg : Registry) : List (String × String) :=
  reg.connections.filterMap (fun conn =>
    if conn.state == NetState.ESTABLISHED then
      if !(containsSub "127.0.0.1".data conn.name.data)
          && !(containsSub "localhost".data conn.name.data) then
        if containsSub "->".data conn.name.data then
          match splitArrow conn.name.data with
          | [_, destPart] =>
            let dest := destPart.takeWhile (fun c => !(c == ':'))
            if !(isPrivateIp dest) then some (conn.command, String.mk dest) else none
          | _ => none
        else none
      else none
    else none)

/-- The vulnerabilities list assembled in get_ai_recommendations. -/
def payloadVulnerabilities (reg : Registry) : List String :=
  (if !(reg.byPort 6379).isEmpty then ["Redis exposed without authentication"] else []) ++
  (if !(reg.byPort 27017).isEmpty then ["MongoDB potentially without authentication"] else []) ++
  (if !(reg.byPort 23).isEmpty then ["Telnet service (unencrypted)"] else [])

/-- The all-interface listener count of get_ai_recommendations, which
unlike the print_summary one does not require a port. -/
def aiAllInterfaceCount (reg : Registry) : Nat :=
  (reg.listeners.filter (fun l =>
    containsSub starColon l.name.data || containsSub zeroAddr l.name.data)).length

/-- The four-port suspicious list of get_ai_recommendations. -/
def aiSuspiciousPorts (reg : Registry) : List Nat :=
  [23, 6379, 27017, 9200].filter (fun p => !(reg.byPort p).isEmpty)

/-- The security score recomputed inside get_ai_recommendations. -/
def aiScore (reg : Registry) : Int :=
  max 0 (100 - 10 * (aiAllInterfaceCount reg : Int)
           - 5 * ((aiSuspiciousPorts reg).length : Int)
           - 2 * ((rootHighListeners reg).length : Int))

/-- The full request payload posted to the analyze endpoint by
get_ai_recommendations. -/
def buildPayload (reg : Registry) (ts : String) : NetworkAnalysis :=
  ⟨servicesData reg, aiScore reg, payloadVulnerabilities reg,
   externalConnections reg, aiSuspiciousPorts reg, ts⟩

/-- Whether a service interface is one of the all-interface literals, the
membership test of the pattern lambdas; a null interface is never a member. -/
def ifaceExposed (s : ServiceInfo) : Bool :=
  s.interface == some "*" || s.interface == some "0.0.0.0"

/-- One entry of the security_patterns knowledge base. -/
structure SecurityPattern where
  pname : String
  pattern : ServiceInfo → Bool
  severity : String
  message : String

/-- SecurityAdvisor.security_patterns in insertion order. -/
def securityPatterns : List SecurityPattern :=
  [⟨"redis_exposed", fun s => (s.port == 6379) && ifaceExposed s, "CRITICAL",
     "Redis exposed without authentication!"⟩,
   ⟨"mongodb_exposed", fun s => (s.port == 27017) && ifaceExposed s, "CRITICAL",
     "MongoDB exposed without authentication!"⟩,
   ⟨"ssh_root", fun s => (s.port == 22) && (s.user == "root"), "HIGH",
     "SSH running as root - security risk!"⟩,
   ⟨"dev_server_exposed", fun s => ([3000, 8000, 8080].contains s.port) && ifaceExposed s,
     "MEDIUM", "Development server exposed to network"⟩]

/-- The SecurityRecommendation pydantic model.  The optional commands
field is always a list in the fallback path, possibly empty. -/
structure SecurityRecommendation where
  severity : String
  category : String
  issue : String
  recommendation : String
  commands : List String
  priority : Nat
  deriving DecidableEq

/-- SecurityAdvisor._get_fallback_recommendation. -/
def getFallbackRecommendation (s : ServiceInfo) : String :=
  if s.port == 6379 then "Configure Redis with authentication and bind to localhost"
  else if s.port == 27017 then "Enable MongoDB authentication and restrict network access"
  else if s.port == 22 then "Use SSH keys, disable root login, and consider changing default port"
  else if [3000, 8000, 8080].contains s.port then
    "Ensure development servers are not exposed in production"
  else "Review security configuration for " ++ s.command ++ " on port " ++ toString s.port

/-- SecurityAdvisor._get_fix_commands. -/
def getFixCommands (s : ServiceInfo) : List String :=
  if s.port == 6379 then
    ["# Edit Redis config",
     "sudo nano /etc/redis/redis.conf",
     "# Add: bind 127.0.0.1",
     "# Add: requirepass your_strong_password_here",
     "sudo systemctl restart redis"]
  else if s.port == 27017 then
    ["# Enable MongoDB auth",
     "mongo",
     "use admin",
     "db.createUser(\x7buser:\x27admin\x27,pwd:\x27strong_password\x27,roles:[\x27root\x27]\x7d)",
     "# Edit /etc/mongod.conf",
     "# Add: security.authorization: enabled"]
  else if (s.port == 22) && (s.user == "root") then
    ["# Disable root SSH",
     "sudo nano /etc/ssh/sshd_config",
     "# Set: PermitRootLogin no",
     "sudo systemctl restart sshd"]
  else []

/-- The recommendations accumulated by SecurityAdvisor._fallback_analysis:
services in order, each checked against every pattern in table order. -/
def fallbackRecommendations (services : List ServiceInfo) : List SecurityRecommendation :=
  services.flatMap (fun s =>
    securityPatterns.filterMap (fun pat =>
      if pat.pattern s then
        some ⟨pat.severity, "Network Exposure",
              pat.message ++ " on port " ++ toString s.port,
              getFallbackRecommendation s, getFixCommands s,
              if pat.severity == "CRITICAL" then 9 else 7⟩
      else none))

/-- The AIResponse pydantic model. -/
structure AIResponse where
  overall_assessment : String
  risk_level : String
  recommendations : List SecurityRecommendation
  executive_summary : String
  action_items : List String
  learning_notes : Option String
  deriving DecidableEq

/-- The risk level cascade of _fallback_analysis, computed over the full
recommendation list before the truncation to ten entries. -/
def fallbackRiskLevel (recs : List SecurityRecommendation) (score : Int) : String :=
  if recs.any (fun r => r.severity == "CRITICAL") then "CRITICAL"
  else if recs.any (fun r => r.severity == "HIGH") then "HIGH"
  else if score < 60 then "MEDIUM"
  else "LOW"

/-- SecurityAdvisor._fallback_analysis. -/
def fallbackAnalysis (data : NetworkAnalysis) : AIResponse :=
  let recommendations := fallbackRecommendations data.services
  ⟨"Automated security analysis completed. Several issues require attention.",
   fallbackRiskLevel recommendations data.security_score,
   recommendations.take 10,
   "Network security scan revealed configuration issues that need immediate attention.",
   ["Review and close unnecessary open ports",
    "Bind services to localhost where possible",
    "Enable authentication on all databases",
    "Implement firewall rules"],
   some "Remember: The principle of least privilege applies to network services too! 🛡️"⟩

/-- Escaping of one character inside a json.dumps string literal.  The
strings serialized here are plain ASCII without control characters, for
which only the quote and backslash escapes apply. -/
def jsonEscapeChar (c : Char) : List Char :=
  if c == '"' then ['\\', '"']
  else if c == '\\' then ['\\', '\\']
  else [c]

/-- json.dumps rendering of a string value. -/
def jsonStr (s : String) : String :=
  String.mk ('"' :: (s.data.flatMap jsonEscapeChar ++ ['"']))

/-- json.dumps rendering of an optional string value, None as null. -/
def jsonOptStr : Option String → String
  | none => "null"
  | some s => jsonStr s

/-- json.dumps of one service dictionary with sort_keys set: the six keys
in alphabetical order with the default item and key separators. -/
def serviceJson (s : ServiceInfo) : String :=
  "\x7b\"command\": " ++ jsonStr s.command ++
  ", \"interface\": " ++ jsonOptStr s.interface ++
  ", \"port\": " ++ toString s.port ++
  ", \"protocol\": " ++ jsonStr s.protocol ++
  ", \"state\": " ++ jsonStr s.state ++
  ", \"user\": " ++ jsonStr s.user ++ "\x7d"

/-- The canonical serialization hashed by _generate_cache_key: json.dumps
of the service dictionary list with sorted keys.  Sorting applies to the
keys of each dictionary; the list keeps its construction order. -/
def serializeServices (services : List ServiceInfo) : String :=
  "[" ++ String.intercalate ", " (services.map serviceJson) ++ "]"

/-- SecurityAdvisor._generate_cache_key. -/
def generateCacheKey (data : NetworkAnalysis) : String :=
  md5Hex (serializeServices data.services)

/-- The seconds attribute of a Python timedelta spanning the given total
number of elapsed seconds: the component left after whole days are
removed, not the total. -/
def tdSecondsAttr (elapsed : Nat) : Nat := elapsed % 86400

/-- The freshness test of analyze_with_ai: the seconds attribute of the
entry age compared against the five-minute CACHE_DURATION. -/
def cacheFresh (elapsed : Nat) : Bool := tdSecondsAttr elapsed < 300

/-- Lookup in the analysis_cache dictionary. -/
def cacheFind : List (String × Nat × AIResponse) → String → Option (Nat × AIResponse)
  | [], _ => none
  | (k, t, r) :: rest, key => if k == key then some (t, r) else cacheFind rest key

/-- Assignment into the analysis_cache dictionary: replace the entry for
the key if present, otherwise add one. -/
def cachePut : List (String × Nat × AIResponse) → String → Nat → AIResponse →
    List (String × Nat × AIResponse)
  | [], key, now, resp => [(key, now, resp)]
  | (k, t, r) :: rest, key, now, resp =>
    if k == key then (key, now, resp) :: rest else (k, t, r) :: cachePut rest key now resp

/-- Outcome of interpreting the text of a successful advisory reply.  ok
models a payload that json-decodes after any code-fence stripping and
validates against the response schema; jsonDecodeFail models a
json.JSONDecodeError raised by json.loads, the only error the inner
except clause of analyze_with_ai catches; schemaFail models any other
failure while building the response object (missing choices key, a
recommendation failing pydantic validation), which reaches the outer
except clause. -/
inductive ParseOutcome
  | ok (resp : AIResponse)
  | jsonDecodeFail
  | schemaFail
  deriving DecidableEq

/-- Outcome of the remote boundary call of analyze_with_ai.  transportFail
models httpx.RequestError; timeoutFail models httpx.TimeoutException,
which is a RequestError and is listed separately only to mirror the claim
wording; httpStatusFail models a non-2xx reply, whose raise_for_status
error is an httpx.HTTPStatusError caught by the generic except clause. -/
inductive RemoteOutcome
  | transportFail
  | timeoutFail
  | httpStatusFail (code : Nat)
  | httpOk (payload : ParseOutcome)
  deriving DecidableEq

/-- The remote phase of SecurityAdvisor.analyze_with_ai, entered on a
cache miss or a stale entry.  Returns the response, the updated cache and
whether the remote boundary was invoked.  On a json decode failure the
fallback response flows on to the cache store line, so it is cached; on
transport, timeout, status and schema failures the except clauses return
the fallback directly without caching. -/
def remotePhase (cache : List (String × Nat × AIResponse)) (now : Nat)
    (data : NetworkAnalysis) (remote : RemoteOutcome) (key : String) :
    AIResponse × List (String × Nat × AIResponse) × Bool :=
  match remote with
  | RemoteOutcome.transportFail => (fallbackAnalysis data, cache, true)
  | RemoteOutcome.timeoutFail => (fallbackAnalysis data, cache, true)
  | RemoteOutcome.httpStatusFail _ => (fallbackAnalysis data, cache, true)
  | RemoteOutcome.httpOk ParseOutcome.jsonDecodeFail =>
    (fallbackAnalysis data, cachePut cache key now (fallbackAnalysis data), true)
  | RemoteOutcome.httpOk ParseOutcome.schemaFail => (fallbackAnalysis data, cache, true)
  | RemoteOutcome.httpOk (ParseOutcome.ok resp) => (resp, cachePut cache key now resp, true)

/-- SecurityAdvisor.analyze_with_ai: one advisory request.  Time is an
explicit parameter in whole seconds; the remote outcome is an explicit
parameter standing for the behaviour of the external boundary.  The
freshness test applies cacheFresh to the entry age, reproducing the
timedelta seconds attribute of the source. -/
def analyzeWithAI (cache : List (String × Nat × AIResponse)) (now : Nat)
    (data : NetworkAnalysis) (remote : RemoteOutcome) :
    AIResponse × List (String × Nat × AIResponse) × Bool :=
  match cacheFind cache (generateCacheKey data) with
  | some (t, resp) =>
    if cacheFresh (now - t) then (resp, cache, false)
    else remotePhase cache now data remote (generateCacheKey data)
  | none => remotePhase cache now data remote (generateCacheKey data)

/-- Commands of the get_port_recommendations endpoint for a given port. -/
def portRecCommands (port : Nat) : List String :=
  if port == 22 then
    ["ssh-keygen -t ed25519 -C \x27your_email@example.com\x27",
     "sudo nano /etc/ssh/sshd_config",
     "# Set: PermitRootLogin no",
     "# Set: PasswordAuthentication no",
     "sudo apt install fail2ban"]
  else if port == 6379 then
    ["redis-cli CONFIG SET requirepass \x27strong_password_here\x27",
     "redis-cli CONFIG SET bind \x27127.0.0.1\x27",
     "redis-cli CONFIG REWRITE"]
  else if port == 27017 then
    ["mongosh",
     "use admin",
     "db.createUser(\x7buser: \x27admin\x27, pwd: \x27password\x27, roles: [\x27root\x27]\x7d)",
     "# Edit /etc/mongod.conf",
     "# security.authorization: enabled"]
  else
    ["sudo lsof -i :" ++ toString port ++ "  # Check what\x27s using this port",
     "sudo ufw deny " ++ toString port ++ "  # Block port with UFW firewall"]

/-- Severity rank used to express the claim wording of C6: the maximum
severity present among recommendations.  This definition follows the
claim text, not the source. -/
def sevRank (s : String) : Nat :=
  if s == "CRITICAL" then 4
  else if s == "HIGH" then 3
  else if s == "MEDIUM" then 2
  else if s == "LOW" then 1
  else 0

/-- Rank of the maximum severity present in a recommendation list, zero
when the list is empty.  Claim-side definition for C6. -/
def maxSevRank (recs : List SecurityRecommendation) : Nat :=
  recs.foldr (fun r m => max (sevRank r.severity) m) 0

/-- Fixture: a minimal service for the cache key claims. -/
def svcA : ServiceInfo := ⟨"a", 1, "T", "u", "L", none⟩

/-- Fixture: a second minimal service, distinct from svcA. -/
def svcB : ServiceInfo := ⟨"b", 2, "T", "u", "L", none⟩

/-- Fixture: an advisory request listing svcA before svcB. -/
def dataAB : NetworkAnalysis := ⟨[svcA, svcB], 50, [], [], [], "t1"⟩

/-- Fixture: the same pair of services listed in the other order. -/
def dataBA : NetworkAnalysis := ⟨[svcB, svcA], 50, [], [], [], "t2"⟩

/-- Fixture: the same services as dataAB with different score, lists and
timestamp, to exhibit what the cache key depends on. -/
def dataABAlt : NetworkAnalysis :=
  ⟨[svcA, svcB], 90, ["x"], [("curl", "203.0.113.5")], [6379], "t9"⟩

/-- Fixture: a development server exposed on all interfaces, triggering
only the MEDIUM pattern. -/
def devSvc : ServiceInfo := ⟨"node", 3000, "TCP", "alice", "LISTENING", some "*"⟩

/-- Fixture: an advisory request with the development service and a high
security score. -/
def devData : NetworkAnalysis := ⟨[devSvc], 90, [], [], [], "t"⟩

/-- Fixture: an advisory request with no services. -/
def emptyData : NetworkAnalysis := ⟨[], 50, [], [], [], "t"⟩

/-- Fixture: an arbitrary well-formed advisory response for cache tests. -/
def stubResponse : AIResponse := ⟨"ok", "LOW", [], "s", [], none⟩

/-- Fixture: the record parse_line produces for redisLine. -/
def redisRecord : RawRecord :=
  ⟨"redis-server", "4242", "root", "TCP", "*:6379 (LISTEN)", NetState.LISTENING, some 6379⟩

/-- Structural invariant of the registry indices maintained by
analyze_data: listener entries are in state LISTENING, connection entries
are in one of the three connection states, and every by-port bucket holds
only LISTENING records carrying that port. -/
def RegInv (reg : Registry) : Prop :=
  (∀ r ∈ reg.listeners, r.state = NetState.LISTENING) ∧
  (∀ r ∈ reg.connections,
      r.state = NetState.ESTABLISHED ∨ r.state = NetState.CLOSED ∨
        r.state = NetState.SYN_SENT) ∧
  (∀ p, ∀ r ∈ reg.byPort p, r.state = NetState.LISTENING ∧ r.port = some p)

/-- Relation stating that every index of the first registry is contained
in the corresponding index of the second. -/
def RegSub (reg reg2 : Registry) : Prop :=
  (∀ r ∈ reg.listeners, r ∈ reg2.listeners) ∧
  (∀ r ∈ reg.connections, r ∈ reg2.connections) ∧
  (∀ p, ∀ r ∈ reg.byPort p, r ∈ reg2.byPort p) ∧
  (∀ c, ∀ r ∈ reg.byProcess c, r ∈ reg2.byProcess c)

theorem colonDigitsSearch_none_start {s : List Char} (h : colonDigitsSearch s = none) :
    colonDigitsStart s = none := by
  cases s with
  | nil => rfl
  | cons c rest =>
    unfold colonDigitsSearch at h
    unfold colonDigitsStart
    split at h
    · exact absurd h (by simp)
    · simp_all

theorem colonDigitsSearch_none_tail {c : Char} {s : List Char}
    (h : colonDigitsSearch (c :: s) = none) : colonDigitsSearch s = none := by
  unfold colonDigitsSearch at h
  split at h
  · exact absurd h (by simp)
  · exact h

theorem colonDigitsSearch_none_dropWhile {s : List Char} (p : Char → Bool)
    (h : colonDigitsSearch s = none) : colonDigitsSearch (s.dropWhile p) = none := by
  induction s with
  | nil => exact h
  | cons c rest ih =>
    rw [List.dropWhile_cons]
    split
    · exact ih (colonDigitsSearch_none_tail h)
    · exact h

theorem bracketScan_none {s : List Char} (h : colonDigitsSearch s = none) :
    bracketScan s = none := by
  induction s with
  | nil => rfl
  | cons c rest ih =>
    unfold bracketScan
    have ht := colonDigitsSearch_none_tail h
    split
    · rw [colonDigitsSearch_none_start ht]
      exact ih ht
    · exact ih ht

theorem addrAt_none {s : List Char} (h : colonDigitsSearch s = none) :
    addrAt s = none := by
  cases s with
  | nil => rfl
  | cons c rest =>
    have ht := colonDigitsSearch_none_tail h
    simp only [addrAt]
    split
    · exact colonDigitsSearch_none_start ht
    · split
      · exact colonDigitsSearch_none_start (colonDigitsSearch_none_dropWhile _ h)
      · split
        · exact bracketScan_none ht
        · rfl

theorem addrPortSearch_none {s : List Char} (h : colonDigitsSearch s = none) :
    addrPortSearch s = none := by
  induction s with
  | nil => rfl
  | cons c rest ih =>
    unfold addrPortSearch
    rw [addrAt_none h]
    exact ih (colonDigitsSearch_none_tail h)

theorem parseNetworkInfo_listen {proto name : List Char}
    (h : containsSub listenTok name = true) :
    parseNetworkInfo proto name = (NetState.LISTENING, colonDigitsSearch name) := by
  unfold parseNetworkInfo
  rw [if_pos h]
  cases hc : colonDigitsSearch name with
  | some p => rfl
  | none => rw [addrPortSearch_none hc]

theorem takeWhile_digits_append {digits post : List Char}
    (hd : digits.all Char.isDigit = true) (hp : headIsDigit post = false) :
    (digits ++ post).takeWhile Char.isDigit = digits := by
  induction digits with
  | nil =>
    simp only [List.nil_append]
    cases post with
    | nil => rfl
    | cons c rest =>
      simp only [headIsDigit] at hp
      simp [List.takeWhile_cons, hp]
  | cons c rest ih =>
    simp only [List.all_cons, Bool.and_eq_true] at hd
    simp [List.takeWhile_cons, hd.1, ih hd.2]

theorem headIsDigit_append_cons (pre : List Char) (c : Char) (xs : List Char) :
    headIsDigit (pre ++ c :: xs) = headIsDigit (pre ++ [c]) := by
  cases pre with
  | nil => rfl
  | cons b rest => rfl

theorem colonDigitsSearch_first {pre digits post : List Char}
    (hpre : hasColonDigit (pre ++ [':']) = false)
    (hne : digits ≠ [])
    (hd : digits.all Char.isDigit = true)
    (hp : headIsDigit post = false) :
    colonDigitsSearch (pre ++ ':' :: (digits ++ post)) = some (natOfDigits digits) := by
  induction pre with
  | nil =>
    simp only [List.nil_append]
    have hh : headIsDigit (digits ++ post) = true := by
      cases digits with
      | nil => exact absurd rfl hne
      | cons c rest =>
        simp only [List.all_cons, Bool.and_eq_true] at hd
        simp [headIsDigit, hd.1]
    simp only [colonDigitsSearch, hh, beq_self_eq_true, Bool.and_self, if_pos]
    rw [takeWhile_digits_append hd hp]
  | cons a pre ih =>
    have hpre2 : ((a == ':') && headIsDigit (pre ++ [':'])) = false ∧
        hasColonDigit (pre ++ [':']) = false := by
      have h0 : hasColonDigit (a :: (pre ++ [':'])) = false := hpre
      simp only [hasColonDigit, Bool.or_eq_false_iff] at h0
      exact h0
    have hgoal : colonDigitsSearch (a :: (pre ++ ':' :: (digits ++ post)))
        = some (natOfDigits digits) := by
      simp only [colonDigitsSearch]
      rw [headIsDigit_append_cons pre ':' (digits ++ post), hpre2.1]
      simp only [if_neg Bool.false_ne_true]
      exact ih hpre2.2
    exact hgoal

theorem endColonDigits_last {pre digits : List Char}
    (hne : digits ≠ [])
    (hd : digits.all Char.isDigit = true) :
    endColonDigits (pre ++ ':' :: digits) = some (natOfDigits digits) := by
  induction pre with
  | nil =>
    have hne2 : digits.isEmpty = false := by
      cases digits with
      | nil => exact absurd rfl hne
      | cons c rest => rfl
    have hgoal : endColonDigits (':' :: digits) = some (natOfDigits digits) := by
      simp [endColonDigits, hne2, hd]
    exact hgoal
  | cons a pre ih =>
    have hdig : Char.isDigit ':' = false := by decide
    have hall : (pre ++ ':' :: digits).all Char.isDigit = false := by
      rw [List.all_append]
      simp [List.all_cons, hdig]
    have hgoal : endColonDigits (a :: (pre ++ ':' :: digits)) = some (natOfDigits digits) := by
      simp only [endColonDigits]
      rw [hall]
      simp only [Bool.and_false, if_neg Bool.false_ne_true]
      exact ih
    exact hgoal

theorem splitWsAux_all_ws {s : List Char} (h : s.all isPyWs = true) :
    splitWsAux s [] = [] := by
  induction s with
  | nil => rfl
  | cons c rest ih =>
    simp only [List.all_cons, Bool.and_eq_true] at h
    simp only [splitWsAux, h.1, if_pos, List.isEmpty_nil, if_true]
    exact ih h.2

theorem stripEmpty_parseLine_none {line : String} (h : stripIsEmpty line = true) :
    parseLine line = none := by
  unfold parseLine
  split
  · rfl
  · have hs : splitWs line.data = [] := splitWsAux_all_ws h
    simp [hs]

theorem regStep_of_parse_none (reg : Registry) (line : String)
    (h : parseLine line = none) : regStep reg line = reg := by
  unfold regStep
  rw [h]
  split <;> rfl

theorem regStep_of_parse_some (reg : Registry) (line : String) (d : RawRecord)
    (h : parseLine line = some d) :
    regStep reg line =
      (let reg1 :=
        match d.state with
        | NetState.LISTENING =>
          { reg with
            listeners := reg.listeners ++ [d],
            byPort :=
              match d.port with
              | some p => addPort reg.byPort p d
              | none => reg.byPort }
        | NetState.ESTABLISHED => { reg with connections := reg.connections ++ [d] }
        | NetState.CLOSED => { reg with connections := reg.connections ++ [d] }
        | NetState.SYN_SENT => { reg with connections := reg.connections ++ [d] }
        | NetState.OTHER => reg
      { reg1 with byProcess := addProc reg1.byProcess d.command d }) := by
  have hne : stripIsEmpty line = false := by
    cases hv : stripIsEmpty line with
    | false => rfl
    | true => rw [stripEmpty_parseLine_none hv] at h; exact absurd h (by simp)
  unfold regStep
  rw [hne, h]
  simp

theorem mem_append_singleton {α : Type} {r d : α} {l : List α} (h : r ∈ l ++ [d]) :
    r ∈ l ∨ r = d := by
  rcases List.mem_append.mp h with h1 | h1
  · exact Or.inl h1
  · exact Or.inr (List.mem_singleton.mp h1)

theorem mem_addPort {f : Nat → List RawRecord} {p q : Nat} {d r : RawRecord}
    (h : r ∈ addPort f p d q) : r ∈ f q ∨ (q = p ∧ r = d) := by
  unfold addPort at h
  by_cases hqp : q = p
  · rw [if_pos hqp] at h
    rcases mem_append_singleton h with h1 | h1
    · exact Or.inl h1
    · exact Or.inr ⟨hqp, h1⟩
  · rw [if_neg hqp] at h
    exact Or.inl h

theorem mem_addPort_of_mem {f : Nat → List RawRecord} {p q : Nat} {d r : RawRecord}
    (h : r ∈ f q) : r ∈ addPort f p d q := by
  unfold addPort
  by_cases hqp : q = p
  · rw [if_pos hqp]; exact List.mem_append_left _ h
  · rw [if_neg hqp]; exact h

theorem mem_addPort_self (f : Nat → List RawRecord) (p : Nat) (d : RawRecord) :
    d ∈ addPort f p d p := by
  unfold addPort
  rw [if_pos rfl]
  exact List.mem_append_right _ (List.mem_singleton.mpr rfl)

theorem mem_addProc_of_mem {f : String → List RawRecord} {c q : String} {d r : RawRecord}
    (h : r ∈ f q) : r ∈ addProc f c d q := by
  unfold addProc
  by_cases hqc : q = c
  · rw [if_pos hqc]; exact List.mem_append_left _ h
  · rw [if_neg hqc]; exact h

theorem mem_addProc_self (f : String → List RawRecord) (c : String) (d : RawRecord) :
    d ∈ addProc f c d c := by
  unfold addProc
  rw [if_pos rfl]
  exact List.mem_append_right _ (List.mem_singleton.mpr rfl)

theorem regStep_shape_listening {reg : Registry} {line : String} {d : RawRecord}
    (hp : parseLine line = some d) (hs : d.state = NetState.LISTENING) :
    regStep reg line =
      ⟨reg.listeners ++ [d], reg.connections,
        (match d.port with
          | some p => addPort reg.byPort p d
          | none => reg.byPort),
        addProc reg.byProcess d.command d⟩ := by
  rw [regStep_of_parse_some reg line d hp, hs]

theorem regStep_shape_conn {reg : Registry} {line : String} {d : RawRecord}
    (hp : parseLine line = some d)
    (hs : d.state = NetState.ESTABLISHED ∨ d.state = NetState.CLOSED ∨
      d.state = NetState.SYN_SENT) :
    regStep reg line =
      ⟨reg.listeners, reg.connections ++ [d], reg.byPort,
        addProc reg.byProcess d.command d⟩ := by
  rw [regStep_of_parse_some reg line d hp]
  rcases hs with h | h | h <;> rw [h]

theorem regStep_shape_other {reg : Registry} {line : String} {d : RawRecord}
    (hp : parseLine line = some d) (hs : d.state = NetState.OTHER) :
    regStep reg line =
      ⟨reg.listeners, reg.connections, reg.byPort,
        addProc reg.byProcess d.command d⟩ := by
  rw [regStep_of_parse_some reg line d hp, hs]

theorem regInv_step {reg : Registry} (line : String) (h : RegInv reg) :
    RegInv (regStep reg line) := by
  obtain ⟨h1, h2, h3⟩ := h
  cases hp : parseLine line with
  | none =>
    rw [regStep_of_parse_none reg line hp]
    exact ⟨h1, h2, h3⟩
  | some d =>
    cases hds : d.state with
    | LISTENING =>
      rw [regStep_shape_listening hp hds]
      refine ⟨?_, h2, ?_⟩
      · intro r hr
        rcases mem_append_singleton hr with hm | hm
        · exact h1 r hm
        · rw [hm]; exact hds
      · intro p r hr
        cases hdp : d.port with
        | some q =>
          rw [hdp] at hr
          rcases mem_addPort hr with hm | hm
          · exact h3 p r hm
          · constructor
            · rw [hm.2]; exact hds
            · rw [hm.2, hdp, hm.1]
        | none =>
          rw [hdp] at hr
          exact h3 p r hr
    | ESTABLISHED =>
      rw [regStep_shape_conn hp (Or.inl hds)]
      refine ⟨h1, ?_, h3⟩
      intro r hr
      rcases mem_append_singleton hr with hm | hm
      · exact h2 r hm
      · rw [hm]; exact Or.inl hds
    | CLOSED =>
      rw [regStep_shape_conn hp (Or.inr (Or.inl hds))]
      refine ⟨h1, ?_, h3⟩
      intro r hr
      rcases mem_append_singleton hr with hm | hm
      · exact h2 r hm
      · rw [hm]; exact Or.inr (Or.inl hds)
    | SYN_SENT =>
      rw [regStep_shape_conn hp (Or.inr (Or.inr hds))]
      refine ⟨h1, ?_, h3⟩
      intro r hr
      rcases mem_append_singleton hr with hm | hm
      · exact h2 r hm
      · rw [hm]; exact Or.inr (Or.inr hds)
    | OTHER =>
      rw [regStep_shape_other hp hds]
      exact ⟨h1, h2, h3⟩

theorem regSub_refl (reg : Registry) : RegSub reg reg :=
  ⟨fun _ h => h, fun _ h => h, fun _ _ h => h, fun _ _ h => h⟩

theorem regSub_trans {a b c : Registry} (h1 : RegSub a b) (h2 : RegSub b c) : RegSub a c :=
  ⟨fun r h => h2.1 r (h1.1 r h),
   fun r h => h2.2.1 r (h1.2.1 r h),
   fun p r h => h2.2.2.1 p r (h1.2.2.1 p r h),
   fun q r h => h2.2.2.2 q r (h1.2.2.2 q r h)⟩

theorem regSub_step (reg : Registry) (line : String) : RegSub reg (regStep reg line) := by
  cases hp : parseLine line with
  | none =>
    rw [regStep_of_parse_none reg line hp]
    exact regSub_refl reg
  | some d =>
    cases hds : d.state with
    | LISTENING =>
      rw [regStep_shape_listening hp hds]
      refine ⟨fun r h => List.mem_append_left _ h, fun r h => h, ?_,
        fun q r h => mem_addProc_of_mem h⟩
      intro p r hr
      cases hdp : d.port with
      | some q => exact mem_addPort_of_mem hr
      | none => exact hr
    | ESTABLISHED =>
      rw [regStep_shape_conn hp (Or.inl hds)]
      exact ⟨fun r h => h, fun r h => List.mem_append_left _ h, fun p r h => h,
        fun q r h => mem_addProc_of_mem h⟩
    | CLOSED =>
      rw [regStep_shape_conn hp (Or.inr (Or.inl hds))]
      exact ⟨fun r h => h, fun r h => List.mem_append_left _ h, fun p r h => h,
        fun q r h => mem_addProc_of_mem h⟩
    | SYN_SENT =>
      rw [regStep_shape_conn hp (Or.inr (Or.inr hds))]
      exact ⟨fun r h => h, fun r h => List.mem_append_left _ h, fun p r h => h,
        fun q r h => mem_addProc_of_mem h⟩
    | OTHER =>
      rw [regStep_shape_other hp hds]
      exact ⟨fun r h => h, fun r h => h, fun p r h => h,
        fun q r h => mem_addProc_of_mem h⟩

theorem regSub_foldl (ls : List String) (reg : Registry) :
    RegSub reg (ls.foldl regStep reg) := by
  induction ls generalizing reg with
  | nil => exact regSub_refl reg
  | cons l ls ih => exact regSub_trans (regSub_step reg l) (ih (regStep reg l))

theorem regInv_foldl (ls : List String) (reg : Registry) (h : RegInv reg) :
    RegInv (ls.foldl regStep reg) := by
  induction ls generalizing reg with
  | nil => exact h
  | cons l ls ih => exact ih _ (regInv_step l h)

theorem regStep_adds {reg : Registry} {line : String} {d : RawRecord}
    (hp : parseLine line = some d) :
    d ∈ (regStep reg line).byProcess d.command ∧
    (d.state = NetState.LISTENING → d ∈ (regStep reg line).listeners) ∧
    (∀ p, d.state = NetState.LISTENING → d.port = some p →
        d ∈ (regStep reg line).byPort p) ∧
    ((d.state = NetState.ESTABLISHED ∨ d.state = NetState.CLOSED ∨
        d.state = NetState.SYN_SENT) → d ∈ (regStep reg line).connections) := by
  cases hds : d.state with
  | LISTENING =>
    rw [regStep_shape_listening hp hds]
    refine ⟨mem_addProc_self _ _ _, fun _ => List.mem_append_right _ (List.mem_singleton.mpr rfl),
      ?_, ?_⟩
    · intro p _ hdp
      rw [hdp]
      exact mem_addPort_self _ _ _
    · intro hc
      rcases hc with h | h | h <;> exact absurd h (by decide)
  | ESTABLISHED =>
    rw [regStep_shape_conn hp (Or.inl hds)]
    refine ⟨mem_addProc_self _ _ _, ?_, ?_, ?_⟩
    · intro hc; exact absurd hc (by decide)
    · intro p hc; exact absurd hc (by decide)
    · intro _; exact List.mem_append_right _ (List.mem_singleton.mpr rfl)
  | CLOSED =>
    rw [regStep_shape_conn hp (Or.inr (Or.inl hds))]
    refine ⟨mem_addProc_self _ _ _, ?_, ?_, ?_⟩
    · intro hc; exact absurd hc (by decide)
    · intro p hc; exact absurd hc (by decide)
    · intro _; exact List.mem_append_right _ (List.mem_singleton.mpr rfl)
  | SYN_SENT =>
    rw [regStep_shape_conn hp (Or.inr (Or.inr hds))]
    refine ⟨mem_addProc_self _ _ _, ?_, ?_, ?_⟩
    · intro hc; exact absurd hc (by decide)
    · intro p hc; exact absurd hc (by decide)
    · intro _; exact List.mem_append_right _ (List.mem_singleton.mpr rfl)
  | OTHER =>
    rw [regStep_shape_other hp hds]
    refine ⟨mem_addProc_self _ _ _, ?_, ?_, ?_⟩
    · intro hc; exact absurd hc (by decide)
    · intro p hc; exact absurd hc (by decide)
    · intro hc
      rcases hc with h | h | h <;> exact absurd h (by decide)

theorem filterSingletonPos {α : Type} (p : α → Bool) (d : α) (h : p d = true) :
    List.filter p [d] = [d] := by
  simp [List.filter, h]

theorem filterSingletonNeg {α : Type} (p : α → Bool) (d : α) (h : p d = false) :
    List.filter p [d] = [] := by
  simp [List.filter, h]

theorem byPort_filter_step {reg : Registry} (line : String)
    (h : ∀ p, reg.byPort p = reg.listeners.filter (fun r => r.port == some p)) :
    ∀ p, (regStep reg line).byPort p =
      (regStep reg line).listeners.filter (fun r => r.port == some p) := by
  cases hp : parseLine line with
  | none =>
    rw [regStep_of_parse_none reg line hp]
    exact h
  | some d =>
    cases hds : d.state with
    | LISTENING =>
      rw [regStep_shape_listening hp hds]
      intro p
      cases hdp : d.port with
      | some q =>
        show addPort reg.byPort q d p
          = List.filter (fun r => r.port == some p) (reg.listeners ++ [d])
        rw [List.filter_append]
        unfold addPort
        by_cases hpq : p = q
        · subst hpq
          rw [if_pos rfl, h p,
            filterSingletonPos _ d (by simp [hdp])]
        · rw [if_neg hpq, h p,
            filterSingletonNeg _ d (by simp [hdp]; exact fun he => hpq he.symm),
            List.append_nil]
      | none =>
        show reg.byPort p = List.filter (fun r => r.port == some p) (reg.listeners ++ [d])
        rw [List.filter_append, h p,
          filterSingletonNeg _ d (by simp [hdp]), List.append_nil]
    | ESTABLISHED => rw [regStep_shape_conn hp (Or.inl hds)]; exact h
    | CLOSED => rw [regStep_shape_conn hp (Or.inr (Or.inl hds))]; exact h
    | SYN_SENT => rw [regStep_shape_conn hp (Or.inr (Or.inr hds))]; exact h
    | OTHER => rw [regStep_shape_other hp hds]; exact h

theorem byPort_filter_foldl (ls : List String) (reg : Registry)
    (h : ∀ p, reg.byPort p = reg.listeners.filter (fun r => r.port == some p)) :
    ∀ p, (ls.foldl regStep reg).byPort p =
      (ls.foldl regStep reg).listeners.filter (fun r => r.port == some p) := by
  induction ls generalizing reg with
  | nil => exact h
  | cons l ls ih => exact ih _ (byPort_filter_step l h)

theorem byPort_eq_filter (lines : List String) (p : Nat) :
    (analyzeData lines).byPort p =
      (analyzeData lines).listeners.filter (fun r => r.port == some p) :=
  byPort_filter_foldl lines emptyRegistry (fun _ => rfl) p

theorem length_filterMap_eq_countP {α β : Type} (f : α → Option β) (l : List α) :
    (l.filterMap f).length = l.countP (fun a => (f a).isSome) := by
  induction l with
  | nil => rfl
  | cons a l ih =>
    rw [List.filterMap_cons, List.countP_cons]
    cases hf : f a with
    | none => simp [hf, ih]
    | some b => simp [hf, ih]

theorem filter_isEmpty_eq_not_any {α : Type} (p : α → Bool) (l : List α) :
    (l.filter p).isEmpty = !(l.any p) := by
  induction l with
  | nil => rfl
  | cons a l ih =>
    rw [List.filter_cons, List.any_cons]
    cases hp : p a
    · simp [ih]
    · simp

theorem allInterfaceListeners_length (reg : Registry) :
    (allInterfaceListeners reg).length = reg.listeners.countP (fun l =>
      (containsSub starColon l.name.data || containsSub zeroAddr l.name.data)
        && l.port.isSome) := by
  unfold allInterfaceListeners
  rw [length_filterMap_eq_countP]
  apply List.countP_congr
  intro r _
  cases hc : (containsSub starColon r.name.data || containsSub zeroAddr r.name.data) <;>
    cases hpp : r.port <;> simp [hc, hpp]

theorem maxSevRank_cons (a : SecurityRecommendation) (l : List SecurityRecommendation) :
    maxSevRank (a :: l) = max (sevRank a.severity) (maxSevRank l) := rfl

theorem sevRank_le_four (s : String) : sevRank s ≤ 4 := by
  unfold sevRank
  split
  · exact Nat.le_refl 4
  · split
    · omega
    · split
      · omega
      · split <;> omega

theorem sevRank_eq_four {s : String} : sevRank s = 4 ↔ s = "CRITICAL" := by
  constructor
  · intro h
    unfold sevRank at h
    split at h
    · rename_i hc; exact eq_of_beq hc
    · split at h
      · omega
      · split at h
        · omega
        · split at h <;> omega
  · intro h
    subst h
    rfl

theorem sevRank_eq_three {s : String} : sevRank s = 3 ↔ s = "HIGH" := by
  constructor
  · intro h
    unfold sevRank at h
    split at h
    · omega
    · split at h
      · rename_i hc; exact eq_of_beq hc
      · split at h
        · omega
        · split at h <;> omega
  · intro h
    subst h
    rfl

theorem sevRank_le_three_of_ne {s : String} (h : s ≠ "CRITICAL") : sevRank s ≤ 3 := by
  unfold sevRank
  split
  · rename_i hc; exact absurd (eq_of_beq hc) h
  · split
    · omega
    · split
      · omega
      · split <;> omega

theorem maxSevRank_le {recs : List SecurityRecommendation} {n : Nat}
    (h : ∀ r ∈ recs, sevRank r.severity ≤ n) : maxSevRank recs ≤ n := by
  induction recs with
  | nil => exact Nat.zero_le n
  | cons a l ih =>
    rw [maxSevRank_cons]
    exact max_le (h a (List.mem_cons_self a l))
      (ih (fun r hr => h r (List.mem_cons_of_mem a hr)))

theorem le_maxSevRank {recs : List SecurityRecommendation} {r : SecurityRecommendation}
    (h : r ∈ recs) : sevRank r.severity ≤ maxSevRank recs := by
  induction recs with
  | nil => cases h
  | cons a l ih =>
    rw [maxSevRank_cons]
    rcases List.mem_cons.mp h with h1 | h1
    · rw [h1]; exact le_max_left _ _
    · exact le_trans (ih h1) (le_max_right _ _)

theorem maxSevRank_mem {recs : List SecurityRecommendation} (h : maxSevRank recs ≠ 0) :
    ∃ r ∈ recs, sevRank r.severity = maxSevRank recs := by
  induction recs with
  | nil => exact absurd rfl h
  | cons a l ih =>
    by_cases hc : maxSevRank l = 0
    · refine ⟨a, List.mem_cons_self a l, ?_⟩
      rw [maxSevRank_cons, hc, Nat.max_zero]
    · obtain ⟨r, hr, he⟩ := ih hc
      by_cases hcmp : sevRank a.severity ≤ maxSevRank l
      · refine ⟨r, List.mem_cons_of_mem a hr, ?_⟩
        rw [maxSevRank_cons, max_eq_right hcmp, he]
      · refine ⟨a, List.mem_cons_self a l, ?_⟩
        rw [maxSevRank_cons, max_eq_left (le_of_not_le hcmp)]

theorem any_critical_iff (recs : List SecurityRecommendation) :
    recs.any (fun r => r.severity == "CRITICAL") = true ↔ maxSevRank recs = 4 := by
  constructor
  · intro h
    obtain ⟨r, hr, hb⟩ := List.any_eq_true.mp h
    have h4 : sevRank r.severity = 4 := by rw [eq_of_beq hb]; rfl
    have hle := le_maxSevRank hr
    have hge : maxSevRank recs ≤ 4 := maxSevRank_le (fun r2 _ => sevRank_le_four r2.severity)
    omega
  · intro h
    obtain ⟨r, hr, he⟩ := @maxSevRank_mem recs (by omega)
    rw [h] at he
    exact List.any_eq_true.mpr ⟨r, hr, beq_iff_eq.mpr (sevRank_eq_four.mp he)⟩

theorem any_high_iff (recs : List SecurityRecommendation)
    (hnc : recs.any (fun r => r.severity == "CRITICAL") = false) :
    (recs.any (fun r => r.severity == "HIGH") = true ↔ maxSevRank recs = 3) := by
  have hub : maxSevRank recs ≤ 3 := by
    apply maxSevRank_le
    intro r hr
    apply sevRank_le_three_of_ne
    intro he
    have := List.any_eq_false.mp hnc r hr
    rw [he] at this
    simp at this
  constructor
  · intro h
    obtain ⟨r, hr, hb⟩ := List.any_eq_true.mp h
    have h3 : sevRank r.severity = 3 := by rw [eq_of_beq hb]; rfl
    have hle := le_maxSevRank hr
    omega
  · intro h
    obtain ⟨r, hr, he⟩ := @maxSevRank_mem recs (by omega)
    rw [h] at he
    exact List.any_eq_true.mpr ⟨r, hr, beq_iff_eq.mpr (sevRank_eq_three.mp he)⟩

theorem fallbackRiskLevel_eq_max (recs : List SecurityRecommendation) (score : Int) :
    fallbackRiskLevel recs score =
      (if maxSevRank recs = 4 then "CRITICAL"
       else if maxSevRank recs = 3 then "HIGH"
       else if score < 60 then "MEDIUM" else "LOW") := by
  unfold fallbackRiskLevel
  cases hc : recs.any (fun r => r.severity == "CRITICAL") with
  | true =>
    rw [if_pos ((any_critical_iff recs).mp hc)]
    simp
  | false =>
    have h4 : maxSevRank recs ≠ 4 := by
      intro h
      rw [(any_critical_iff recs).mpr h] at hc
      cases hc
    rw [if_neg h4]
    cases hh : recs.any (fun r => r.severity == "HIGH") with
    | true =>
      rw [if_pos ((any_high_iff recs hc).mp hh)]
      simp
    | false =>
      have h3 : maxSevRank recs ≠ 3 := by
        intro h
        rw [(any_high_iff recs hc).mpr h] at hh
        cases hh
      rw [if_neg h3]
      simp

/-- Claim C1 counterexample: on the registry built from two identical
all-interface redis listener lines, print_summary scores the exposure
term with multiplicity and yields 71, while the claim formula over
distinct (command, port, user) tuples yields 81, so the claim is false
as stated. -/
theorem c1_counterexample :
    securityScore (analyzeData [redisLine, redisLine])
        ≠ claimScoreDistinct (analyzeData [redisLine, redisLine]) ∧
      securityScore (analyzeData [redisLine, redisLine]) = 71 ∧
      claimScoreDistinct (analyzeData [redisLine, redisLine]) = 81 := by
  decide

/-- Claim C1 (amended): for every registry built by analyze_data, the
security score equals 100 minus 10 times the number of all-interface
listener records that have a port, counted with multiplicity, minus 5
times the number of distinct known-risk ports with at least one listener,
minus 2 times the number of root-owned listeners on ports above 1024,
clamped below at 0. -/
theorem c1_amended (lines : List String) :
    securityScore (analyzeData lines) =
      max 0 (100
        - 10 * ((analyzeData lines).listeners.countP (fun l =>
            (containsSub starColon l.name.data || containsSub zeroAddr l.name.data)
              && l.port.isSome) : Int)
        - 5 * (suspiciousPorts.countP (fun p =>
            (analyzeData lines).listeners.any (fun r => r.port == some p)) : Int)
        - 2 * ((analyzeData lines).listeners.countP (fun l =>
            (l.user == "root") && decide (1024 < l.port.getD 0)) : Int)) := by
  have h1 := allInterfaceListeners_length (analyzeData lines)
  have h3 : (rootHighListeners (analyzeData lines)).length =
      (analyzeData lines).listeners.countP (fun l =>
        (l.user == "root") && decide (1024 < l.port.getD 0)) := by
    unfold rootHighListeners
    exact (List.countP_eq_length_filter _ _).symm
  have h2 : (flaggedRiskyPorts (analyzeData lines)).length =
      suspiciousPorts.countP (fun p =>
        (analyzeData lines).listeners.any (fun r => r.port == some p)) := by
    unfold flaggedRiskyPorts
    rw [← List.countP_eq_length_filter]
    apply List.countP_congr
    intro p _
    rw [byPort_eq_filter lines p, filter_isEmpty_eq_not_any, Bool.not_not]
  unfold securityScore
  rw [h1, h2, h3]

/-- Claim C2 counterexample: for the single redis listener line the
report score is 83, not 90 as claimed, and no command of the fallback
advisory mentions redis-cli, so the claimed exact commands do not appear
in the fallback either. -/
theorem c2_counterexample :
    securityScore (analyzeData [redisLine]) ≠ 90 ∧
      (fallbackAnalysis (buildPayload (analyzeData [redisLine]) "t0")).recommendations.all
        (fun r => r.commands.all (fun cmd => !(containsSubStr "redis-cli" cmd))) = true := by
  decide

/-- Claim C2 (amended): for the single redis listener record the report
score is exactly 83 (100 minus 10 for the all-interface exposure, minus 5
for the known-risk port, minus 2 for the root-owned high port), the port
6379 finding carries severity CRITICAL, and the fallback advisory with AI
disabled recommends configuring Redis authentication and binding to
localhost with fix commands that edit /etc/redis/redis.conf; the
redis-cli CONFIG SET requirepass and CONFIG REWRITE commands belong to
the separate per-port recommendations endpoint. -/
theorem c2_amended :
    securityScore (analyzeData [redisLine]) = 83 ∧
    allInterfaceListeners (analyzeData [redisLine]) = [("redis-server", 6379, "root")] ∧
    assessPortRisk 6379 = "CRITICAL" ∧
    (fallbackAnalysis (buildPayload (analyzeData [redisLine]) "t0")).risk_level = "CRITICAL" ∧
    (fallbackAnalysis (buildPayload (analyzeData [redisLine]) "t0")).recommendations =
      [⟨"CRITICAL", "Network Exposure", "Redis exposed without authentication! on port 6379",
        "Configure Redis with authentication and bind to localhost",
        ["# Edit Redis config", "sudo nano /etc/redis/redis.conf", "# Add: bind 127.0.0.1",
         "# Add: requirepass your_strong_password_here", "sudo systemctl restart redis"],
        9⟩] ∧
    portRecCommands 6379 =
      ["redis-cli CONFIG SET requirepass \x27strong_password_here\x27",
       "redis-cli CONFIG SET bind \x27127.0.0.1\x27",
       "redis-cli CONFIG REWRITE"] := by
  decide

/-- Claim C7: a line on which parse returns null contributes nothing to
the analysis; the batch over any surrounding lines produces exactly the
registry of the batch without it, so malformed input never aborts or
alters the rest of the batch.  Parsing itself is a total function in this
embedding, mirroring the exception handler that converts any error to
null. -/
theorem c7_malformed_line_dropped (pre post : List String) (line : String)
    (h : parseLine line = none) :
    analyzeData (pre ++ line :: post) = analyzeData (pre ++ post) := by
  unfold analyzeData
  rw [List.foldl_append, List.foldl_append, List.foldl_cons,
    regStep_of_parse_none _ _ h]

/-- Witness for C7 at a concrete garbage line. -/
theorem c7_witness :
    parseLine garbageLine = none ∧
      analyzeData [redisLine, garbageLine] = analyzeData [redisLine] :=
  ⟨by decide, c7_malformed_line_dropped [redisLine] [] garbageLine (by decide)⟩

/-- Claim C10: every line with fewer than nine whitespace-separated
fields is rejected by parse_line, regardless of its content. -/
theorem c10_short_line_rejected (line : String)
    (h : (splitWs line.data).length < 9) : parseLine line = none := by
  unfold parseLine
  split
  · rfl
  · simp only [if_pos h]

/-- Witness for C10: an eight-field line that carries a protocol token
and a parseable address is still rejected. -/
theorem c10_witness :
    (splitWs shortLine.data).length < 9 ∧ containsSubStr "TCP" shortLine = true ∧
      parseLine shortLine = none :=
  ⟨by decide, by decide, c10_short_line_rejected shortLine (by decide)⟩

/-- Claim C9: every listener entry is in state LISTENING, every
connection entry is in one of the three connection states, every by-port
bucket holds only LISTENING records with that port (so a record in state
OTHER never reaches the port or connection indices), and every record
parsed from a batch line is placed in the per-process index, in the
listener set and by-port index when LISTENING, and in the connection set
when in a connection state. -/
theorem c9_registry_invariants (lines : List String) :
    (∀ r ∈ (analyzeData lines).listeners, r.state = NetState.LISTENING) ∧
    (∀ r ∈ (analyzeData lines).connections,
        r.state = NetState.ESTABLISHED ∨ r.state = NetState.CLOSED ∨
          r.state = NetState.SYN_SENT) ∧
    (∀ p, ∀ r ∈ (analyzeData lines).byPort p,
        r.state = NetState.LISTENING ∧ r.port = some p) ∧
    (∀ line ∈ lines, ∀ d, parseLine line = some d →
        d ∈ (analyzeData lines).byProcess d.command ∧
        (d.state = NetState.LISTENING → d ∈ (analyzeData lines).listeners) ∧
        (∀ p, d.state = NetState.LISTENING → d.port = some p →
            d ∈ (analyzeData lines).byPort p) ∧
        ((d.state = NetState.ESTABLISHED ∨ d.state = NetState.CLOSED ∨
            d.state = NetState.SYN_SENT) → d ∈ (analyzeData lines).connections)) := by
  have hinv : RegInv (analyzeData lines) :=
    regInv_foldl lines emptyRegistry
      ⟨fun r h => absurd h (List.not_mem_nil r),
       fun r h => absurd h (List.not_mem_nil r),
       fun p r h => absurd h (List.not_mem_nil r)⟩
  refine ⟨hinv.1, hinv.2.1, hinv.2.2, ?_⟩
  intro line hline d hparse
  obtain ⟨l1, l2, rfl⟩ := List.append_of_mem hline
  have hadds := @regStep_adds (List.foldl regStep emptyRegistry l1) line d hparse
  have hsub : RegSub (regStep (List.foldl regStep emptyRegistry l1) line)
      (analyzeData (l1 ++ line :: l2)) := by
    unfold analyzeData
    rw [List.foldl_append, List.foldl_cons]
    exact regSub_foldl l2 _
  exact ⟨hsub.2.2.2 _ _ hadds.1,
    fun hs => hsub.1 _ (hadds.2.1 hs),
    fun p hs hp => hsub.2.2.1 p _ (hadds.2.2.1 p hs hp),
    fun hs => hsub.2.1 _ (hadds.2.2.2 hs)⟩

/-- Witness for C9 at the concrete redis listener line. -/
theorem c9_witness :
    redisRecord ∈ (analyzeData [redisLine]).listeners ∧
      redisRecord ∈ (analyzeData [redisLine]).byPort 6379 := by
  have h := (c9_registry_invariants [redisLine]).2.2.2 redisLine
    (List.mem_singleton.mpr rfl) redisRecord (by decide)
  exact ⟨h.2.1 rfl, h.2.2.1 6379 rfl rfl⟩

/-- Claim C8 counterexample: for the raw name of a bracketed IPv6
listener the extracted port is the digits after the first colon that is
followed by a digit, which inside the brackets gives 1, not the 8080 the
claim requires. -/
theorem c8_counterexample :
    (parseLine ipv6Line).map RawRecord.port = some (some 1) ∧
      (parseLine ipv6Line).map RawRecord.port ≠ some (some 8080) := by
  decide

/-- Claim C8 (amended): for a LISTENING record the extracted port is the
digit run immediately after the first colon-followed-by-digit occurrence
anywhere in the raw name, with the address to its left never validated;
for a UDP record with no recognised state token the port is the trailing
digit run at the end of the name immediately preceded by a colon. -/
theorem c8_amended :
    (∀ (proto pre digits post : List Char),
        hasColonDigit (pre ++ [':']) = false →
        digits ≠ [] →
        digits.all Char.isDigit = true →
        headIsDigit post = false →
        containsSub listenTok (pre ++ ':' :: (digits ++ post)) = true →
        parseNetworkInfo proto (pre ++ ':' :: (digits ++ post)) =
          (NetState.LISTENING, some (natOfDigits digits))) ∧
    (∀ (pre digits : List Char),
        digits ≠ [] →
        digits.all Char.isDigit = true →
        containsSub listenTok (pre ++ ':' :: digits) = false →
        containsSub establishedTok (pre ++ ':' :: digits) = false →
        containsSub closedTok (pre ++ ':' :: digits) = false →
        containsSub synSentTok (pre ++ ':' :: digits) = false →
        parseNetworkInfo ("UDP".data) (pre ++ ':' :: digits) =
          (NetState.OTHER, some (natOfDigits digits))) := by
  constructor
  · intro proto pre digits post hpre hne hd hp hlis
    rw [parseNetworkInfo_listen hlis, colonDigitsSearch_first hpre hne hd hp]
  · intro pre digits hne hd h1 h2 h3 h4
    unfold parseNetworkInfo
    rw [h1, h2, h3, h4]
    simp only [Bool.false_eq_true, if_false, beq_self_eq_true, if_true]
    rw [endColonDigits_last hne hd]

/-- Witness for C8 at the bracketed IPv6 name and a UDP mDNS name. -/
theorem c8_amended_witness :
    parseNetworkInfo "TCP".data "[::1]:8080 (LISTEN)".data = (NetState.LISTENING, some 1) ∧
      parseNetworkInfo "UDP".data "*:5353".data = (NetState.OTHER, some 5353) := by
  constructor
  · have e : "[:".data ++ ':' :: ("1".data ++ "]:8080 (LISTEN)".data)
        = "[::1]:8080 (LISTEN)".data := by decide
    have h := c8_amended.1 "TCP".data "[:".data "1".data "]:8080 (LISTEN)".data
      (by decide) (by decide) (by decide) (by decide) (by decide)
    rw [e] at h
    exact h.trans (by decide)
  · have e : "*".data ++ ':' :: "5353".data = "*:5353".data := by decide
    have h := c8_amended.2 "*".data "5353".data
      (by decide) (by decide) (by decide) (by decide) (by decide) (by decide)
    rw [e] at h
    exact h.trans (by decide)

/-- Claim C3 evaluation at the failing input: a cache entry created at
time 0 is requested again 86400 seconds later, one full day and far past
the 300 second window, yet the request returns the cached response with
no remote call, because the freshness test uses the timedelta seconds
attribute, which discards whole days. -/
theorem c3_stale_entry_served :
    analyzeWithAI [(generateCacheKey emptyData, 0, stubResponse)] 86400 emptyData
        RemoteOutcome.transportFail
      = (stubResponse, [(generateCacheKey emptyData, 0, stubResponse)], false) ∧
      cacheFresh 86400 = true ∧ 300 ≤ 86400 := by
  refine ⟨?_, by decide, by decide⟩
  unfold analyzeWithAI
  have hf : cacheFresh (86400 - 0) = true := by decide
  simp only [cacheFind, beq_self_eq_true, if_true, hf]

theorem remotePhase_no_store (cache : List (String × Nat × AIResponse)) (now : Nat)
    (data : NetworkAnalysis) (key : String) (code : Nat) :
    (remotePhase cache now data RemoteOutcome.transportFail key).2.1 = cache ∧
    (remotePhase cache now data RemoteOutcome.timeoutFail key).2.1 = cache ∧
    (remotePhase cache now data (RemoteOutcome.httpStatusFail code) key).2.1 = cache ∧
    (remotePhase cache now data (RemoteOutcome.httpOk ParseOutcome.schemaFail) key).2.1
      = cache :=
  ⟨rfl, rfl, rfl, rfl⟩

theorem analyzeWithAI_cache_unchanged (cache : List (String × Nat × AIResponse))
    (now : Nat) (data : NetworkAnalysis) (remote : RemoteOutcome)
    (hns : ∀ key, (remotePhase cache now data remote key).2.1 = cache) :
    (analyzeWithAI cache now data remote).2.1 = cache := by
  unfold analyzeWithAI
  cases hcf : cacheFind cache (generateCacheKey data) with
  | none => exact hns _
  | some tr =>
    cases tr with
    | mk t resp =>
      show (if cacheFresh (now - t) = true then (resp, cache, false)
        else remotePhase cache now data remote (generateCacheKey data)).2.1 = cache
      cases hf : cacheFresh (now - t) with
      | true => rw [if_pos rfl]
      | false =>
        rw [if_neg Bool.false_ne_true]
        exact hns _

/-- Claim C4 counterexample: when the remote boundary returns a 2xx reply
whose text fails to json-decode, the fallback response is stored in the
cache under the request key, and a subsequent request with the same
service set is served from the cache without retrying the remote
boundary, contrary to the claim. -/
theorem c4_counterexample :
    (analyzeWithAI [] 0 emptyData (RemoteOutcome.httpOk ParseOutcome.jsonDecodeFail)).1
        = fallbackAnalysis emptyData ∧
      (analyzeWithAI [] 0 emptyData (RemoteOutcome.httpOk ParseOutcome.jsonDecodeFail)).2.1
        = [(generateCacheKey emptyData, 0, fallbackAnalysis emptyData)] ∧
      (analyzeWithAI
          [(generateCacheKey emptyData, 0, fallbackAnalysis emptyData)]
          10 emptyData (RemoteOutcome.httpOk (ParseOutcome.ok stubResponse))).2.2
        = false := by
  refine ⟨rfl, rfl, ?_⟩
  unfold analyzeWithAI
  have hf : cacheFresh (10 - 0) = true := by decide
  simp only [cacheFind, beq_self_eq_true, if_true, hf]

/-- Claim C4 (amended): fallback responses born of transport failure,
timeout, non-2xx status or schema validation failure are not stored in
the cache, but a fallback produced because a 2xx payload failed to
json-decode is stored under the request key, so only the former paths
leave the next request to retry the remote boundary. -/
theorem c4_amended (cache : List (String × Nat × AIResponse)) (now : Nat)
    (data : NetworkAnalysis) (code : Nat) :
    (analyzeWithAI cache now data RemoteOutcome.transportFail).2.1 = cache ∧
    (analyzeWithAI cache now data RemoteOutcome.timeoutFail).2.1 = cache ∧
    (analyzeWithAI cache now data (RemoteOutcome.httpStatusFail code)).2.1 = cache ∧
    (analyzeWithAI cache now data (RemoteOutcome.httpOk ParseOutcome.schemaFail)).2.1
      = cache ∧
    (cacheFind cache (generateCacheKey data) = none →
      (analyzeWithAI cache now data (RemoteOutcome.httpOk ParseOutcome.jsonDecodeFail)).2.1 =
        cachePut cache (generateCacheKey data) now (fallbackAnalysis data)) := by
  refine ⟨?_, ?_, ?_, ?_, ?_⟩
  · exact analyzeWithAI_cache_unchanged cache now data _
      (fun key => (remotePhase_no_store cache now data key code).1)
  · exact analyzeWithAI_cache_unchanged cache now data _
      (fun key => (remotePhase_no_store cache now data key code).2.1)
  · exact analyzeWithAI_cache_unchanged cache now data _
      (fun key => (remotePhase_no_store cache now data key code).2.2.1)
  · exact analyzeWithAI_cache_unchanged cache now data _
      (fun key => (remotePhase_no_store cache now data key code).2.2.2)
  · intro hmiss
    unfold analyzeWithAI
    rw [hmiss]
    rfl

/-- Witness for C4 on an empty cache. -/
theorem c4_amended_witness :
    (analyzeWithAI [] 0 devData RemoteOutcome.transportFail).2.1 = [] ∧
      (analyzeWithAI [] 0 devData (RemoteOutcome.httpOk ParseOutcome.jsonDecodeFail)).2.1 =
        cachePut [] (generateCacheKey devData) 0 (fallbackAnalysis devData) :=
  ⟨(c4_amended [] 0 devData 404).1, (c4_amended [] 0 devData 404).2.2.2.2 rfl⟩

set_option maxRecDepth 200000 in
/-- Claim C5 counterexample: the two requests list the same two services
in opposite orders, a permutation of one another, yet their cache keys
differ, because the canonical serialization sorts only the keys inside
each service dictionary and keeps the list order. -/
theorem c5_counterexample :
    dataAB.services.Perm dataBA.services ∧
      generateCacheKey dataAB ≠ generateCacheKey dataBA := by
  constructor
  · exact List.Perm.swap svcB svcA []
  · decide

/-- Claim C5 (amended): the cache key is a function of the service list
alone, identical lists in the same order give identical keys whatever
the score, vulnerabilities, connections or timestamp, but reordering the
list changes the serialization and in general the key. -/
theorem c5_amended (d1 d2 : NetworkAnalysis) (h : d1.services = d2.services) :
    generateCacheKey d1 = generateCacheKey d2 := by
  unfold generateCacheKey
  rw [h]

/-- Witness for C5: equal service lists with different score, lists and
timestamp give the same key. -/
theorem c5_amended_witness : generateCacheKey dataAB = generateCacheKey dataABAlt :=
  c5_amended dataAB dataABAlt rfl

/-- Claim C6 counterexample: a single exposed development server triggers
only a MEDIUM recommendation; with a security score of 90 the fallback
risk level is LOW, not the MEDIUM maximum severity the claim requires. -/
theorem c6_counterexample :
    (fallbackRecommendations devData.services).map SecurityRecommendation.severity
        = ["MEDIUM"] ∧
      (fallbackAnalysis devData).risk_level = "LOW" ∧
      ("LOW" : String) ≠ "MEDIUM" := by
  decide

/-- Claim C6 (amended): the fallback risk level is CRITICAL when the
maximum severity present among the triggered recommendations is CRITICAL
(rank 4) and HIGH when it is HIGH (rank 3); otherwise, including when the
maximum present severity is MEDIUM, it is MEDIUM if the security score is
below 60 and LOW if not. -/
theorem c6_amended (data : NetworkAnalysis) :
    (fallbackAnalysis data).risk_level =
      (if maxSevRank (fallbackRecommendations data.services) = 4 then "CRITICAL"
       else if maxSevRank (fallbackRecommendations data.services) = 3 then "HIGH"
       else if data.security_score < 60 then "MEDIUM" else "LOW") :=
  fallbackRiskLevel_eq_max _ _

/-- Witness for C1 at the duplicated redis line batch, where the amended
formula evaluates to 71. -/
theorem c1_amended_witness : securityScore (analyzeData [redisLine, redisLine]) = 71 :=
  (c1_amended [redisLine, redisLine]).trans (by decide)

/-- Witness for C6 at the development server request, where the maximum
severity present is MEDIUM and the score is 90, giving LOW. -/
theorem c6_amended_witness : (fallbackAnalysis devData).risk_level = "LOW" :=
  (c6_amended devData).trans (by decide)
